import Mathlib

/-!
Verification development for the genima session/image-context engine.

The definitions below are a shallow embedding of the TypeScript source:
`types.ts` (data model), `components/ImageEditor.tsx` (send/retry turn
engine), `App.tsx` (session collection), `services/geminiService.ts`
(gateway response parsing) and `services/storageService.ts` (persistent
store and legacy migration).  JavaScript string primitives used by the
source (`trim`, `slice`, `split`, truthiness) are re-implemented here as
structurally recursive functions over `List Char` so that every
definition evaluates inside the kernel.
-/

/-! ## JavaScript string primitives -/

/-- JS whitespace test for the characters `trim` strips (ASCII subset). -/
def isJsSpace (c : Char) : Bool :=
  c = ' ' || c = '\t' || c = '\n' || c = '\r'

/-- `String.prototype.trim`. -/
def jsTrim (s : String) : String :=
  String.mk (((s.data.dropWhile isJsSpace).reverse.dropWhile isJsSpace).reverse)

/-- `String.prototype.slice(0, n)`. -/
def jsSlice (s : String) (n : Nat) : String :=
  String.mk (s.data.take n)

/-- JS string truthiness on an optional string: `null`, `undefined` and
`""` are falsy. -/
def jsTruthy (o : Option String) : Option String :=
  match o with
  | some s => if s = "" then none else some s
  | none => none

/-- Split a character list at every occurrence of `sep`, like
`String.prototype.split` with a one-character separator
(`"".split(x) = [""]`, trailing separators produce a trailing `""`). -/
def splitChar (sep : Char) : List Char → List (List Char)
  | [] => [[]]
  | c :: cs =>
    if c = sep then [] :: splitChar sep cs
    else
      match splitChar sep cs with
      | [] => [[c]]
      | h :: t => (c :: h) :: t

/-- `String.prototype.split` with a one-character separator. -/
def jsSplit (sep : Char) (s : String) : List String :=
  (splitChar sep s.data).map String.mk

/-! ## Data model (`types.ts`) -/

/-- An image in its three encodings (`ImageState` in `types.ts`); each
field is `string | null` in the source. -/
structure ImageState where
  dataUrl : Option String
  mimeType : Option String
  base64Data : Option String
deriving DecidableEq, Repr

/-- Message role tag. -/
inductive Role
  | user
  | model
deriving DecidableEq, Repr

/-- One turn in a session (`Message` in `types.ts`); `image` is the
deprecated single-image field kept for backward compatibility. -/
structure Message where
  id : String
  role : Role
  text : Option String
  image : Option String
  images : Option (List String)
  timestamp : Nat
  isError : Bool
deriving DecidableEq, Repr

/-- Uniform result of a generation call (`GenerationResult`). -/
structure GenerationResult where
  imageUrl : Option String
  text : Option String
deriving DecidableEq, Repr

/-- Generation parameters (`AppSettings`); the source's float
`temperature` is modelled as a rational passed through verbatim. -/
structure AppSettings where
  temperature : Rat
  style : String
  aspectRatioVal : String
  isFullBody : Bool
deriving DecidableEq, Repr

/-- The default settings used for new sessions and hydration. -/
def defaultSettings : AppSettings :=
  { temperature := 1, style := "None", aspectRatioVal := "1:1", isFullBody := false }

/-- One conversation thread (`Session` in `types.ts`). -/
structure Session where
  id : String
  title : String
  messages : List Message
  activeImage : Option ImageState
  lastModified : Nat
  settings : AppSettings
deriving DecidableEq, Repr

/-- A fresh default session as built in `App.tsx` (`createNewSession`
and the delete-last replacement). -/
def mkDefaultSession (id : String) (now : Nat) : Session :=
  { id := id, title := "New Chat", messages := [], activeImage := none,
    lastModified := now, settings := defaultSettings }

/-! ## Image decomposition -/

/-- The inline decomposition the editor applies to a data URL pulled
out of message history:
`{ dataUrl: url, mimeType: url.split(';')[0].split(':')[1], base64Data: url.split(',')[1] }`. -/
def decomposeUrl (url : String) : ImageState :=
  { dataUrl := some url,
    mimeType := ((jsSplit ';' url).get? 0).bind fun s0 => (jsSplit ':' s0).get? 1,
    base64Data := (jsSplit ',' url).get? 1 }

/-- The active image stored after a successful generation:
`{ dataUrl: url, mimeType: 'image/png', base64Data: url.split(',')[1] }`. -/
def pngActiveImage (url : String) : ImageState :=
  { dataUrl := some url, mimeType := some "image/png",
    base64Data := (jsSplit ',' url).get? 1 }

/-- The data URL the gateway builds for a returned inline image:
`data:image/png;base64,` followed by the raw payload. -/
def pngDataUrl (d : String) : String :=
  "data:image/png;base64," ++ d

/-- The characters of `"data:"`. -/
def dataColonChars : List Char := ['d', 'a', 't', 'a', ':']

/-- The characters of `"image/png"`. -/
def pngMimeChars : List Char := ['i', 'm', 'a', 'g', 'e', '/', 'p', 'n', 'g']

/-- The characters of `";base64,"`. -/
def base64TagChars : List Char := [';', 'b', 'a', 's', 'e', '6', '4', ',']

/-- The characters of `"data:image/png;base64,"`. -/
def pngPrefixChars : List Char := dataColonChars ++ pngMimeChars ++ base64TagChars

/-- Drop an expected leading character sequence; `none` when the list
does not start with it. -/
def dropLeadChars : List Char → List Char → Option (List Char)
  | [], rest => some rest
  | _ :: _, [] => none
  | p :: ps, c :: cs => if c = p then dropLeadChars ps cs else none

/-- The characters strictly before the first occurrence of `sep`. -/
def untilChar (sep : Char) : List Char → List Char
  | [] => []
  | c :: cs => if c = sep then [] else c :: untilChar sep cs

/-- The characters strictly after the first occurrence of `sep`;
`none` when `sep` does not occur. -/
def afterFirstChar (sep : Char) : List Char → Option (List Char)
  | [] => none
  | c :: cs => if c = sep then some cs else afterFirstChar sep cs

/-- Modelled from the spec (section 3): the MIME type of a data URL is
the substring between `data:` and the following `;base64`. -/
def specMimeType (u : String) : Option String :=
  match dropLeadChars dataColonChars u.data with
  | some rest => some (String.mk (untilChar ';' rest))
  | none => none

/-- Modelled from the spec (section 3): the base64 payload of a data
URL is the substring after the first comma. -/
def specBase64Data (u : String) : Option String :=
  (afterFirstChar ',' u.data).map String.mk

/-- Modelled from the spec (section 3): the exact decomposition of a
data URL into its three encodings. -/
def specDecompose (u : String) : ImageState :=
  { dataUrl := some u, mimeType := specMimeType u, base64Data := specBase64Data u }

/-! ## Context resolution and turn engine (`ImageEditor.tsx`) -/

/-- Per-message image lookup used by the history scans: a message
carries an image when its `images` array is non-empty (the *last*
entry is taken) or, failing that, when its legacy `image` field is
truthy. -/
def msgScanImage (m : Message) : Option String :=
  match m.images with
  | some imgs =>
    match imgs.getLast? with
    | some lastUrl => some lastUrl
    | none => jsTruthy m.image
  | none => jsTruthy m.image

/-- Scan a message list given most-recent-first for the first message
carrying an image (the source iterates `for (i = length-1; i >= 0; i--)`,
so callers pass the reversed history). -/
def lastCarriedImage : List Message → Option String
  | [] => none
  | m :: rest =>
    match msgScanImage m with
    | some u => some u
    | none => lastCarriedImage rest

/-- Image-context resolution for a send
(`handleSendMessage`, "Determine Context Images"): pending uploads
first (last becomes the next active image), else the current active
image, else the most recent image found in history. Returns the images
to send and the next active image. -/
def resolveContext (messages : List Message) (activeImage : Option ImageState)
    (pending : List ImageState) : List ImageState × Option ImageState :=
  if pending = [] then
    match activeImage with
    | some a => ([a], some a)
    | none =>
      match lastCarriedImage messages.reverse with
      | some u => ([decomposeUrl u], some (decomposeUrl u))
      | none => ([], none)
  else (pending, pending.getLast?)

/-- The model message appended on an image success (image only, no
text). -/
def mkImageMessage (id url : String) (now : Nat) : Message :=
  { id := id, role := Role.model, text := none, image := none,
    images := some [url], timestamp := now, isError := false }

/-- The model message appended on a text-only success. -/
def mkTextMessage (id text : String) (now : Nat) : Message :=
  { id := id, role := Role.model, text := some text, image := none,
    images := none, timestamp := now, isError := false }

/-- The error-flagged model message appended on a failure; `em` is the
thrown error's message when it was an `Error`. -/
def mkErrorMessage (id : String) (em : Option String) (fallback : String)
    (now : Nat) : Message :=
  { id := id, role := Role.model,
    text := some (match em with | some m => "Error: " ++ m | none => fallback),
    image := none, images := none, timestamp := now, isError := true }

/-- Outcome of the gateway call as seen by the turn engine: a parsed
result, or a thrown error (with its message when it was an `Error`). -/
inductive GenOutcome
  | success (r : GenerationResult)
  | failure (em : Option String)
deriving DecidableEq, Repr

/-- The user message constructed by `handleSendMessage`. -/
def sendUserMessage (uId userText : String) (pending : List ImageState)
    (now : Nat) : Message :=
  { id := uId, role := Role.user, text := some userText, image := none,
    images := if pending = [] then none
              else some (pending.map fun i => i.dataUrl.getD ""),
    timestamp := now, isError := false }

/-- Title assignment in `handleSendMessage`: only on the first real
exchange (existing count at most 1), from the trimmed text truncated
to 30 characters plus an ellipsis, or a fixed placeholder for an
image-only first turn. -/
def sendTitle (sess : Session) (userText : String)
    (pending : List ImageState) : String :=
  if sess.messages.length ≤ 1 ∧ userText ≠ "" then
    jsSlice userText 30 ++ (if 30 < userText.data.length then "..." else "")
  else if sess.messages.length ≤ 1 ∧ pending ≠ [] then "Image Edit Session"
  else sess.title

/-- The model message appended by the send path for a given outcome. -/
def sendResponseMessage (mId : String) (now : Nat) : GenOutcome → Message
  | GenOutcome.success r =>
    match jsTruthy r.imageUrl with
    | some url => mkImageMessage mId url now
    | none =>
      mkTextMessage mId
        ((jsTruthy r.text).getD "I processed the request but didn't generate a new image.") now
  | GenOutcome.failure em =>
    mkErrorMessage mId em "Sorry, something went wrong with the image generation." now

/-- The active image after the send path's final update: the returned
image's stored decomposition on an image success, otherwise the field
of the captured (pre-send) session, which the source spreads with
`...session`. -/
def sendFinalActive (sess : Session) : GenOutcome → Option ImageState
  | GenOutcome.success r =>
    match jsTruthy r.imageUrl with
    | some url => some (pngActiveImage url)
    | none => sess.activeImage
  | GenOutcome.failure _ => sess.activeImage

/-- The session written by the send path's final `onUpdateSession`. -/
def sendFinalSession (sess : Session) (newTitle : String)
    (updatedMessages : List Message) (mId : String) (now : Nat)
    (oc : GenOutcome) : Session :=
  { sess with
    title := newTitle,
    messages := updatedMessages ++ [sendResponseMessage mId now oc],
    activeImage := sendFinalActive sess oc,
    lastModified := now }

/-- Everything a send produces: the images handed to the gateway, the
effective prompt, the optimistic pre-call session and the final
session. -/
structure SendResult where
  sent : List ImageState
  effectivePrompt : String
  mid : Session
  final : Session
deriving DecidableEq, Repr

/-- The body of `handleSendMessage` once the entry guard has passed. -/
def sendRun (sess : Session) (iv : String) (pending : List ImageState)
    (uId mId : String) (now : Nat) (oc : GenOutcome) : SendResult :=
  let userText := jsTrim iv
  let updatedMessages := sess.messages ++ [sendUserMessage uId userText pending now]
  let newTitle := sendTitle sess userText pending
  let rc := resolveContext sess.messages sess.activeImage pending
  { sent := rc.1,
    effectivePrompt := if userText = "" then "Edit this image" else userText,
    mid := { sess with
             title := newTitle, messages := updatedMessages,
             activeImage := rc.2, lastModified := now },
    final := sendFinalSession sess newTitle updatedMessages mId now oc }

/-- `handleSendMessage`: no-op when there is neither trimmed text nor a
pending image, or when a generation is in flight; otherwise runs the
send. -/
def handleSendMessage (sess : Session) (iv : String)
    (pending : List ImageState) (isLoading : Bool) (uId mId : String)
    (now : Nat) (oc : GenOutcome) : Option SendResult :=
  if (jsTrim iv = "" ∧ pending = []) ∨ isLoading = true then none
  else some (sendRun sess iv pending uId mId now oc)

/-! ## Retry (`confirmRetry`) -/

/-- The strictly-earlier-history scan of the retry path: look just
before the preceding user message (indices `msgIndex - 2` down to 0)
with the same dual-field lookup as the send scan. -/
def retryScanInputs (messages : List Message) (msgIndex : Nat) : List ImageState :=
  match lastCarriedImage (messages.take (msgIndex - 1)).reverse with
  | some u => [decomposeUrl u]
  | none => []

/-- Retry input resolution: all of the preceding user message's
`images` when that array is non-empty (its legacy `image` field is not
consulted), else the strictly-earlier scan. -/
def retryInputs (messages : List Message) (msgIndex : Nat)
    (userMsg : Message) : List ImageState :=
  match userMsg.images with
  | some imgs =>
    if imgs = [] then retryScanInputs messages msgIndex
    else imgs.map decomposeUrl
  | none => retryScanInputs messages msgIndex

/-- Retry effective prompt: the user message's text (`|| ""`) plus a
space-separated trimmed feedback string, with `"Edit this image"` when
the combination is empty. -/
def retryFullPrompt (userMsg : Message) (rp : String) : String :=
  let basePrompt := userMsg.text.getD ""
  let additional := if jsTrim rp = "" then "" else " " ++ jsTrim rp
  if basePrompt ++ additional = "" then "Edit this image" else basePrompt ++ additional

/-- The model message appended by the retry path for a given outcome
(same as the send path except for the failure fallback wording). -/
def retryResponseMessage (mId : String) (now : Nat) : GenOutcome → Message
  | GenOutcome.success r =>
    match jsTruthy r.imageUrl with
    | some url => mkImageMessage mId url now
    | none =>
      mkTextMessage mId
        ((jsTruthy r.text).getD "I processed the request but didn't generate a new image.") now
  | GenOutcome.failure em => mkErrorMessage mId em "Sorry, something went wrong." now

/-- The active image after the retry path's final update: the returned
image's stored decomposition on an image success; the rewound value on
a text-only success; on failure the field of the captured (pre-retry)
session, which the source spreads with `...session`. -/
def retryFinalActive (sess : Session) (reverted : Option ImageState) :
    GenOutcome → Option ImageState
  | GenOutcome.success r =>
    match jsTruthy r.imageUrl with
    | some url => some (pngActiveImage url)
    | none => reverted
  | GenOutcome.failure _ => sess.activeImage

/-- The session written by the retry path's final `onUpdateSession`
(title kept from the captured session; `lastModified` refreshed). -/
def retryFinalSession (sess : Session) (newMessages : List Message)
    (reverted : Option ImageState) (mId : String) (now : Nat)
    (oc : GenOutcome) : Session :=
  { sess with
    messages := newMessages ++ [retryResponseMessage mId now oc],
    activeImage := retryFinalActive sess reverted oc,
    lastModified := now }

/-- Everything a retry produces: the re-resolved inputs, the effective
prompt, the optimistic rewound session and the final session. -/
structure RetryResult where
  inputs : List ImageState
  fullPrompt : String
  mid : Session
  final : Session
deriving DecidableEq, Repr

/-- The body of `confirmRetry` from the target-index lookup on: a
no-op when the preceding user message does not exist
(`messages[msgIndex - 1]` is undefined, which includes `msgIndex = 0`). -/
def retryRun (sess : Session) (msgIndex : Nat) (rp mId : String)
    (now : Nat) (oc : GenOutcome) : Option RetryResult :=
  if msgIndex = 0 then none
  else
    match sess.messages.get? (msgIndex - 1) with
    | none => none
    | some userMsg =>
      let inputs := retryInputs sess.messages msgIndex userMsg
      let newMessages := sess.messages.take msgIndex
      let reverted := inputs.getLast?
      some { inputs := inputs,
             fullPrompt := retryFullPrompt userMsg rp,
             mid := { sess with messages := newMessages, activeImage := reverted },
             final := retryFinalSession sess newMessages reverted mId now oc }

/-- `confirmRetry`: requires an armed retry modal (target index and
retry settings set) and no generation in flight; the retry settings
are only handed to the gateway and never written back to the session,
so they do not appear in the produced state. -/
def confirmRetry (sess : Session) (retryTargetIndex : Option Nat)
    (retrySettings : Option AppSettings) (rp : String) (isLoading : Bool)
    (mId : String) (now : Nat) (oc : GenOutcome) : Option RetryResult :=
  match retryTargetIndex, retrySettings with
  | some msgIndex, some _ =>
    if isLoading = true then none
    else retryRun sess msgIndex rp mId now oc
  | _, _ => none

/-! ## Settings update (`updateSettings` in `ImageEditor.tsx`) -/

/-- A partial settings object (`Partial<AppSettings>`): each field
optionally present. -/
structure SettingsPatch where
  temperature : Option Rat
  style : Option String
  aspectRatioVal : Option String
  isFullBody : Option Bool
deriving DecidableEq, Repr

/-- JS object spread `{ ...settings, ...newSettings }`: fields present
in the patch win. -/
def mergeSettings (base : AppSettings) (p : SettingsPatch) : AppSettings :=
  { temperature := p.temperature.getD base.temperature,
    style := p.style.getD base.style,
    aspectRatioVal := p.aspectRatioVal.getD base.aspectRatioVal,
    isFullBody := p.isFullBody.getD base.isFullBody }

/-- `updateSettings`: writes the merged settings back into the session;
no other field of the session is touched. -/
def updateSettings (sess : Session) (p : SettingsPatch) : Session :=
  { sess with settings := mergeSettings sess.settings p }

/-! ## Gateway response parsing (`geminiService.ts`) -/

/-- One part of a model response: an optional inline payload and an
optional text, as navigated by `part.inlineData` / `part.text`. -/
structure GPart where
  inlineData : Option String
  text : Option String
deriving DecidableEq, Repr

/-- One step of the response scan: an inline part overwrites the image
URL (re-encoded as a PNG data URL); otherwise a truthy text overwrites
the text (`if (part.inlineData) ... else if (part.text) ...` with no
break). -/
def parseStep (acc : Option String × Option String) (p : GPart) :
    Option String × Option String :=
  match p.inlineData with
  | some d => (some (pngDataUrl d), acc.2)
  | none =>
    match jsTruthy p.text with
    | some t => (acc.1, some t)
    | none => acc

/-- The full scan over the returned parts. -/
def parseParts (parts : List GPart) : Option String × Option String :=
  parts.foldl parseStep (none, none)

/-- Response handling of `editImageWithGemini`: `none` models a
response whose `candidates[0].content.parts` chain is missing at any
level (the optional-chaining guard), yielding an empty result. -/
def editResponseParse (resp : Option (List GPart)) : GenerationResult :=
  match resp with
  | none => { imageUrl := none, text := none }
  | some parts =>
    let r := parseParts parts
    { imageUrl := r.1, text := r.2 }

/-- Modelled from the spec as amended: the image URL produced by the
scan is the *last* inline-image part, re-encoded as a PNG data URL. -/
def lastInlineUrl : List GPart → Option String
  | [] => none
  | p :: rest =>
    match lastInlineUrl rest with
    | some u => some u
    | none => (p.inlineData).map pngDataUrl

/-- Modelled from the spec as amended: the text produced by the scan
is the *last* part that has no inline payload and a truthy text. -/
def lastTextVal : List GPart → Option String
  | [] => none
  | p :: rest =>
    match lastTextVal rest with
    | some t => some t
    | none =>
      match p.inlineData with
      | some _ => none
      | none => jsTruthy p.text

/-! ## Session collection (`App.tsx`) -/

/-- `put` on the durable store: upsert keyed by `id`. -/
def putSession (db : List Session) (s : Session) : List Session :=
  if db.any fun t => t.id = s.id then
    db.map fun t => if t.id = s.id then s else t
  else db ++ [s]

/-- Upsert a whole list in order (the migration's `puts`). -/
def upsertAll (db : List Session) (l : List Session) : List Session :=
  l.foldl putSession db

/-- The app state the session operations act on: the in-memory list,
the selected id, and the durable store contents. -/
structure AppState where
  sessions : List Session
  currentId : Option String
  db : List Session
deriving DecidableEq, Repr

/-- `createNewSession`: prepend a fresh default session, select it,
persist it. -/
def createNewSession (st : AppState) (newId : String) (now : Nat) : AppState :=
  let s := mkDefaultSession newId now
  { sessions := s :: st.sessions, currentId := some s.id,
    db := putSession st.db s }

/-- `handleDeleteSession`: filter the session out; if nothing remains,
synthesize, select and persist a fresh default session; otherwise
select the first remaining session when the deleted one was selected.
The durable delete always runs. -/
def handleDeleteSession (st : AppState) (sessionId : String)
    (newId : String) (now : Nat) : AppState :=
  let db2 := st.db.filter fun s => s.id ≠ sessionId
  match st.sessions.filter fun s => s.id ≠ sessionId with
  | [] =>
    let s := mkDefaultSession newId now
    { sessions := [s], currentId := some s.id, db := putSession db2 s }
  | t :: rest =>
    { sessions := t :: rest,
      currentId := if st.currentId = some sessionId then some t.id else st.currentId,
      db := db2 }

/-- A create or delete operation on the session collection. -/
inductive AppOp
  | create (newId : String) (now : Nat)
  | delete (sessionId newId : String) (now : Nat)
deriving DecidableEq, Repr

/-- Apply one operation. -/
def applyOp (st : AppState) : AppOp → AppState
  | AppOp.create newId now => createNewSession st newId now
  | AppOp.delete sessionId newId now => handleDeleteSession st sessionId newId now

/-! ## Persistent store and legacy migration (`storageService.ts`, `App.tsx`) -/

/-- `clearLocalStorageAndMigrate`. The raw legacy blob is an optional
string; `parse` models `JSON.parse` (`none` = the parse threw; a
non-array successful parse behaves exactly like an empty array and is
folded into it); `putFails` models which individual `put` requests
error (an erroring request rejects `Promise.all` and aborts the
IndexedDB transaction, so no write persists). Returns the resulting
(primary store, legacy blob) pair and the migrated list, `none` when
nothing was migrated; every error path is caught inside the function. -/
def clearLocalStorageAndMigrate (db : List Session) (legacy : Option String)
    (parse : String → Option (List Session)) (putFails : Session → Bool) :
    (List Session × Option String) × Option (List Session) :=
  match legacy with
  | none => ((db, none), none)
  | some saved =>
    match parse saved with
    | none => ((db, some saved), none)
    | some parsed =>
      if parsed = [] then ((db, some saved), none)
      else if parsed.any putFails then ((db, some saved), none)
      else ((upsertAll db parsed, none), some parsed)

/-- The load-and-migrate prelude of `initializeApp`: read everything
from the primary store; only when that is empty, attempt the legacy
migration. Returns the resulting store state and the loaded list. -/
def initAppSessions (db : List Session) (legacy : Option String)
    (parse : String → Option (List Session)) (putFails : Session → Bool) :
    (List Session × Option String) × List Session :=
  if db = [] then
    match clearLocalStorageAndMigrate db legacy parse putFails with
    | (store2, some migrated) => (store2, migrated)
    | (store2, none) => (store2, [])
  else ((db, legacy), db)

/-! ## Editor transient state (`ImageEditor.tsx`, session-switch effect) -/

/-- The editor's component-local state: draft text, busy flags,
pending images and the retry-modal state. None of it is part of the
persisted `Session`. -/
structure EditorTransientState where
  inputValue : String
  isLoading : Bool
  isEnhancing : Bool
  showSettings : Bool
  pendingImages : List ImageState
  retryTargetIndex : Option Nat
  retryPrompt : String
  retrySettings : Option AppSettings
deriving DecidableEq, Repr

/-- The `useEffect` keyed on `session.id`: on every switch of the
displayed session, update the async-guard ref to the new id and reset
every piece of transient editor state. -/
def resetOnSessionSwitch (_st : EditorTransientState) (newSessionId : String) :
    EditorTransientState × String :=
  ({ inputValue := "", isLoading := false, isEnhancing := false,
     showSettings := false, pendingImages := [], retryTargetIndex := none,
     retryPrompt := "", retrySettings := none }, newSessionId)

/-! ## Sidebar ordering (`Sidebar.tsx`) -/

/-- Stable insertion of a session into a newest-first list: placed
before the first strictly older entry, as the stable
`sort((a, b) => b.lastModified - a.lastModified)` does. -/
def insertDesc (s : Session) : List Session → List Session
  | [] => [s]
  | t :: ts =>
    if t.lastModified < s.lastModified then s :: t :: ts
    else t :: insertDesc s ts

/-- The sidebar's newest-first listing order. -/
def sortSessions (l : List Session) : List Session :=
  l.foldr insertDesc []

/-- Newest-first sortedness. -/
def sessionsSortedDesc (l : List Session) : Prop :=
  l.Pairwise fun a b => b.lastModified ≤ a.lastModified

/-! ## Concrete example data for the scenario checks -/

/-- A user message literal. -/
def exUserMsg (id : String) (text : Option String) (image : Option String)
    (images : Option (List String)) (ts : Nat) : Message :=
  { id := id, role := Role.user, text := text, image := image,
    images := images, timestamp := ts, isError := false }

/-- A model message literal. -/
def exModelMsg (id : String) (images : Option (List String)) (ts : Nat) : Message :=
  { id := id, role := Role.model, text := none, image := none,
    images := images, timestamp := ts, isError := false }

/-- Data URL of image A. -/
def exUrlA : String := "data:image/png;base64,QUFB"

/-- Data URL of image B. -/
def exUrlB : String := "data:image/png;base64,QkJC"

/-- Data URL of image X. -/
def exUrlX : String := "data:image/png;base64,WFhY"

/-- A legacy-format data URL. -/
def exUrlLegacy : String := "data:image/jpeg;base64,TEVH"

/-- Context-priority scenario session: active image A, an older image
B in history, no pending images. -/
def exSessC1 : Session :=
  { id := "s1", title := "T",
    messages := [exUserMsg "u0" (some "older") none (some [exUrlB]) 1,
                 exModelMsg "m0" (some [exUrlB]) 2],
    activeImage := some (decomposeUrl exUrlA), lastModified := 3,
    settings := defaultSettings }

/-- Retry scenario session: active image X (from the discarded model
answer), preceding user message carrying image A. -/
def exSessC2 : Session :=
  { id := "s2", title := "T",
    messages := [exUserMsg "u0" (some "add a hat") none (some [exUrlA]) 1,
                 exModelMsg "m0" (some [exUrlX]) 2],
    activeImage := some (pngActiveImage exUrlX), lastModified := 3,
    settings := defaultSettings }

/-- Legacy-retry scenario session: the preceding user message carries
only the deprecated single-image field. -/
def exSessC3 : Session :=
  { id := "s3", title := "T",
    messages := [exUserMsg "u0" (some "add hat") (some exUrlLegacy) none 1,
                 exModelMsg "m0" none 2],
    activeImage := none, lastModified := 3, settings := defaultSettings }

/-- Two inline-image parts, no text part. -/
def exPartsC4 : List GPart :=
  [{ inlineData := some "QUFB", text := none },
   { inlineData := some "QkJC", text := none }]

/-- A session whose timestamp and settings the settings-change check
inspects. -/
def exSessC8 : Session :=
  { id := "s8", title := "T", messages := [], activeImage := none,
    lastModified := 5, settings := defaultSettings }

/-- A patch changing only the style. -/
def exPatchC8 : SettingsPatch :=
  { temperature := none, style := some "Anime", aspectRatioVal := none,
    isFullBody := none }

/-- A one-session app state. -/
def exAppStateC7 : AppState :=
  { sessions := [mkDefaultSession "a" 0], currentId := some "a",
    db := [mkDefaultSession "a" 0] }

/-- Delete the only session, then create another. -/
def exOpsC7 : List AppOp :=
  [AppOp.delete "a" "b" 1, AppOp.create "c" 2]

/-- The single session produced by the example legacy blob. -/
def exMigSession : Session := mkDefaultSession "mig1" 3

/-- A parse function for the example legacy blob. -/
def exParseC9 : String → Option (List Session) := fun _ => some [exMigSession]

/-- No put fails in the example migration. -/
def exPutFailsC9 : Session → Bool := fun _ => false

/-! ## Shared lemmas about the string primitives -/

/-- Splitting a list that does not contain the separator yields the
list itself as the only segment. -/
theorem splitChar_not_mem (sep : Char) :
    ∀ l : List Char, sep ∉ l → splitChar sep l = [l]
  | [], _ => rfl
  | c :: cs, h => by
    have hc : ¬c = sep := fun hh => h (hh ▸ List.mem_cons_self c cs)
    have hcs : sep ∉ cs := fun hh => h (List.mem_cons_of_mem c hh)
    simp [splitChar, hc, splitChar_not_mem sep cs hcs]

/-- Splitting peels off a separator-free head segment. -/
theorem splitChar_append (sep : Char) :
    ∀ (l rest : List Char), sep ∉ l →
      splitChar sep (l ++ sep :: rest) = l :: splitChar sep rest
  | [], rest, _ => by simp [splitChar]
  | c :: cs, rest, h => by
    have hc : ¬c = sep := fun hh => h (hh ▸ List.mem_cons_self c cs)
    have hcs : sep ∉ cs := fun hh => h (List.mem_cons_of_mem c hh)
    simp [splitChar, hc, splitChar_append sep cs rest hcs]

/-- The suffix after the first separator occurrence. -/
theorem afterFirstChar_append (sep : Char) :
    ∀ (l rest : List Char), sep ∉ l →
      afterFirstChar sep (l ++ sep :: rest) = some rest
  | [], rest, _ => by simp [afterFirstChar]
  | c :: cs, rest, h => by
    have hc : ¬c = sep := fun hh => h (hh ▸ List.mem_cons_self c cs)
    have hcs : sep ∉ cs := fun hh => h (List.mem_cons_of_mem c hh)
    simp [afterFirstChar, hc, afterFirstChar_append sep cs rest hcs]

/-- The prefix before the first separator occurrence. -/
theorem untilChar_append (sep : Char) :
    ∀ (l rest : List Char), sep ∉ l →
      untilChar sep (l ++ sep :: rest) = l
  | [], rest, _ => by simp [untilChar]
  | c :: cs, rest, h => by
    have hc : ¬c = sep := fun hh => h (hh ▸ List.mem_cons_self c cs)
    have hcs : sep ∉ cs := fun hh => h (List.mem_cons_of_mem c hh)
    simp [untilChar, hc, untilChar_append sep cs rest hcs]

/-- Dropping a lead that is literally there. -/
theorem dropLeadChars_append :
    ∀ (p rest : List Char), dropLeadChars p (p ++ rest) = some rest
  | [], _ => rfl
  | c :: cs, rest => by simp [dropLeadChars, dropLeadChars_append cs rest]

/-- The character data of the gateway's PNG data URL. -/
theorem pngDataUrl_data (d : String) :
    (pngDataUrl d).data = pngPrefixChars ++ d.data := by
  obtain ⟨dd⟩ := d
  rfl

/-- A gateway PNG data URL is never the empty string. -/
theorem pngDataUrl_ne_empty (d : String) : pngDataUrl d ≠ "" := by
  intro h
  have h2 : pngPrefixChars ++ d.data = ([] : List Char) := by
    rw [← pngDataUrl_data d]
    exact congrArg String.data h
  simp [pngPrefixChars, dataColonChars] at h2

/-- For a separator-free payload, the stored active image of a
generation success (`mimeType: 'image/png'`, `base64Data:
url.split(',')[1]`) coincides with the spec's exact decomposition of
the returned URL. -/
theorem pngActiveImage_decomposes (d : String) (hd : ',' ∉ d.data) :
    pngActiveImage (pngDataUrl d) = specDecompose (pngDataUrl d) := by
  have hnomem : ',' ∉ (['d', 'a', 't', 'a', ':', 'i', 'm', 'a', 'g', 'e',
      '/', 'p', 'n', 'g', ';', 'b', 'a', 's', 'e', '6', '4'] : List Char) := by decide
  have hform : pngPrefixChars ++ d.data
      = (['d', 'a', 't', 'a', ':', 'i', 'm', 'a', 'g', 'e',
          '/', 'p', 'n', 'g', ';', 'b', 'a', 's', 'e', '6', '4'] : List Char)
        ++ ',' :: d.data := by
    simp [pngPrefixChars, dataColonChars, pngMimeChars, base64TagChars]
  have hsplit : splitChar ',' (pngDataUrl d).data
      = (['d', 'a', 't', 'a', ':', 'i', 'm', 'a', 'g', 'e',
          '/', 'p', 'n', 'g', ';', 'b', 'a', 's', 'e', '6', '4'] : List Char)
        :: [d.data] := by
    rw [pngDataUrl_data, hform, splitChar_append ',' _ d.data hnomem,
      splitChar_not_mem ',' d.data hd]
  have hafter : afterFirstChar ',' (pngDataUrl d).data = some d.data := by
    rw [pngDataUrl_data, hform]
    exact afterFirstChar_append ',' _ d.data hnomem
  have hmimeform : pngPrefixChars ++ d.data
      = dataColonChars ++ (pngMimeChars ++ (';' :: (['b', 'a', 's', 'e', '6', '4', ','] ++ d.data))) := by
    simp [pngPrefixChars, dataColonChars, pngMimeChars, base64TagChars]
  have hmime : specMimeType (pngDataUrl d) = some "image/png" := by
    unfold specMimeType
    rw [pngDataUrl_data, hmimeform, dropLeadChars_append]
    show some (String.mk (untilChar ';'
      (pngMimeChars ++ ';' :: (['b', 'a', 's', 'e', '6', '4', ','] ++ d.data)))) = some "image/png"
    rw [untilChar_append ';' pngMimeChars _ (by decide)]
    decide
  unfold pngActiveImage specDecompose specBase64Data jsSplit
  rw [hsplit, hafter, hmime]
  obtain ⟨dd⟩ := d
  simp

/-! ## Claim C1: send-turn image-context resolution -/

/-- C1: for every accepted send, the input image set is resolved by
strict priority — all pending images (the last becoming the new active
image); else exactly the session's active image; else the single image
found by scanning `messages` newest-to-oldest with the dual-field
lookup (`lastCarriedImage`), which also becomes the provisional active
image; else the empty set. -/
theorem claim_C1_send_image_priority (sess : Session) (iv : String)
    (pending : List ImageState) (uId mId : String) (now : Nat)
    (oc : GenOutcome) (hacc : ¬(jsTrim iv = "" ∧ pending = [])) :
    handleSendMessage sess iv pending false uId mId now oc
      = some (sendRun sess iv pending uId mId now oc) ∧
    (pending ≠ [] →
      (sendRun sess iv pending uId mId now oc).sent = pending ∧
      (sendRun sess iv pending uId mId now oc).mid.activeImage = pending.getLast?) ∧
    (∀ a, pending = [] → sess.activeImage = some a →
      (sendRun sess iv pending uId mId now oc).sent = [a] ∧
      (sendRun sess iv pending uId mId now oc).mid.activeImage = some a) ∧
    (pending = [] → sess.activeImage = none →
      (sendRun sess iv pending uId mId now oc).sent
        = ((lastCarriedImage sess.messages.reverse).map decomposeUrl).toList ∧
      (sendRun sess iv pending uId mId now oc).mid.activeImage
        = (lastCarriedImage sess.messages.reverse).map decomposeUrl) := by
  refine ⟨by simp [handleSendMessage, hacc], ?_, ?_, ?_⟩
  · intro hp
    simp [sendRun, resolveContext, hp]
  · intro a hp ha
    simp [sendRun, resolveContext, hp, ha]
  · intro hp ha
    cases hlast : lastCarriedImage sess.messages.reverse with
    | none => simp [sendRun, resolveContext, hp, ha, hlast]
    | some u => simp [sendRun, resolveContext, hp, ha, hlast]

/-- Witness for C1: the spec's context-priority scenario — active
image A, older image B in history, no pending images, text
"make it blue": exactly `[A]` is sent and the active image is kept. -/
theorem claim_C1_witness :
    ¬(jsTrim "make it blue" = "" ∧ ([] : List ImageState) = []) ∧
    (sendRun exSessC1 "make it blue" [] "u1" "m1" 7 (GenOutcome.failure none)).sent
      = [decomposeUrl exUrlA] ∧
    (sendRun exSessC1 "make it blue" [] "u1" "m1" 7 (GenOutcome.failure none)).mid.activeImage
      = some (decomposeUrl exUrlA) :=
  ⟨by decide,
    (claim_C1_send_image_priority exSessC1 "make it blue" [] "u1" "m1" 7
      (GenOutcome.failure none) (by decide)).2.2.1 (decomposeUrl exUrlA) rfl rfl⟩

/-! ## Claim C10: session-switch reset of transient editor state -/

/-- C10: every switch of the displayed session resets all transient
editor state — pending images discarded (so a following resolution
sees none), draft input cleared, the loading flag and the whole
retry-modal state cleared — and retargets the async-guard ref. -/
theorem claim_C10_session_switch_reset (st : EditorTransientState)
    (newId : String) (msgs : List Message) (ai : Option ImageState) :
    (resetOnSessionSwitch st newId).1.pendingImages = [] ∧
    (resetOnSessionSwitch st newId).1.inputValue = "" ∧
    (resetOnSessionSwitch st newId).1.isLoading = false ∧
    (resetOnSessionSwitch st newId).1.isEnhancing = false ∧
    (resetOnSessionSwitch st newId).1.showSettings = false ∧
    (resetOnSessionSwitch st newId).1.retryTargetIndex = none ∧
    (resetOnSessionSwitch st newId).1.retryPrompt = "" ∧
    (resetOnSessionSwitch st newId).1.retrySettings = none ∧
    (resetOnSessionSwitch st newId).2 = newId ∧
    resolveContext msgs ai (resetOnSessionSwitch st newId).1.pendingImages
      = resolveContext msgs ai [] :=
  ⟨rfl, rfl, rfl, rfl, rfl, rfl, rfl, rfl, rfl, rfl⟩

/-! ## Gateway parsing lemmas -/

/-- First component of one scan step. -/
theorem parseStep_fst (acc : Option String × Option String) (p : GPart) :
    (parseStep acc p).1 = (match p.inlineData with
      | some d => some (pngDataUrl d)
      | none => acc.1) := by
  cases hp : p.inlineData with
  | some d => simp [parseStep, hp]
  | none =>
    cases ht : jsTruthy p.text <;> simp [parseStep, hp, ht]

/-- Second component of one scan step. -/
theorem parseStep_snd (acc : Option String × Option String) (p : GPart) :
    (parseStep acc p).2 = (match p.inlineData with
      | some _ => acc.2
      | none => (match jsTruthy p.text with
        | some t => some t
        | none => acc.2)) := by
  cases hp : p.inlineData with
  | some d => simp [parseStep, hp]
  | none =>
    cases ht : jsTruthy p.text <;> simp [parseStep, hp, ht]

/-- The accumulator-generalized characterization of the scan: the last
inline part wins for the image, the last truthy text-only part wins
for the text. -/
theorem parseParts_acc :
    ∀ (parts : List GPart) (acc : Option String × Option String),
      (parts.foldl parseStep acc).1
        = (match lastInlineUrl parts with | some u => some u | none => acc.1) ∧
      (parts.foldl parseStep acc).2
        = (match lastTextVal parts with | some t => some t | none => acc.2)
  | [], _ => ⟨rfl, rfl⟩
  | p :: rest, acc => by
    obtain ⟨ih1, ih2⟩ := parseParts_acc rest (parseStep acc p)
    constructor
    · rw [List.foldl_cons, ih1]
      cases hrest : lastInlineUrl rest with
      | some u => simp [lastInlineUrl, hrest]
      | none =>
        simp only [lastInlineUrl, hrest]
        rw [parseStep_fst]
        cases hp : p.inlineData <;> simp [hp]
    · rw [List.foldl_cons, ih2]
      cases hrest : lastTextVal rest with
      | some t => simp [lastTextVal, hrest]
      | none =>
        simp only [lastTextVal, hrest]
        rw [parseStep_snd]
        cases hp : p.inlineData with
        | some d => simp [hp]
        | none => cases ht : jsTruthy p.text <;> simp [hp, ht]

/-! ## Retry unfolding lemmas -/

/-- When the preceding user message exists, the retry body produces
exactly the rewound and final states built from the re-resolved
inputs. -/
theorem retryRun_eq (sess : Session) (msgIndex : Nat) (rp mId : String)
    (now : Nat) (oc : GenOutcome) (userMsg : Message) (h0 : msgIndex ≠ 0)
    (hu : sess.messages.get? (msgIndex - 1) = some userMsg) :
    retryRun sess msgIndex rp mId now oc
      = some { inputs := retryInputs sess.messages msgIndex userMsg,
               fullPrompt := retryFullPrompt userMsg rp,
               mid := { sess with
                        messages := sess.messages.take msgIndex,
                        activeImage := (retryInputs sess.messages msgIndex userMsg).getLast? },
               final := retryFinalSession sess (sess.messages.take msgIndex)
                          ((retryInputs sess.messages msgIndex userMsg).getLast?)
                          mId now oc } := by
  rw [List.get?_eq_getElem?] at hu
  simp [retryRun, h0, hu]

/-- Conversely, any produced retry result has that exact shape. -/
theorem retryRun_some (sess : Session) (msgIndex : Nat) (rp mId : String)
    (now : Nat) (oc : GenOutcome) (r : RetryResult)
    (hr : retryRun sess msgIndex rp mId now oc = some r) :
    ∃ userMsg, msgIndex ≠ 0 ∧ sess.messages.get? (msgIndex - 1) = some userMsg ∧
      r = { inputs := retryInputs sess.messages msgIndex userMsg,
            fullPrompt := retryFullPrompt userMsg rp,
            mid := { sess with
                     messages := sess.messages.take msgIndex,
                     activeImage := (retryInputs sess.messages msgIndex userMsg).getLast? },
            final := retryFinalSession sess (sess.messages.take msgIndex)
                       ((retryInputs sess.messages msgIndex userMsg).getLast?)
                       mId now oc } := by
  unfold retryRun at hr
  split at hr
  · exact absurd hr (by simp)
  · next h0 =>
    split at hr
    · exact absurd hr (by simp)
    · next userMsg hu =>
      rw [Option.some_inj] at hr
      exact ⟨userMsg, h0, hu, hr.symm⟩

/-! ## Claim C4: gateway response parsing -/

/-- C4 counterexample: with two inline-image parts, the result's
`imageUrl` is the re-encoding of the *second* (last) part, not of the
first as the claim states. -/
theorem claim_C4_counterexample :
    editResponseParse (some exPartsC4)
      = { imageUrl := some "data:image/png;base64,QkJC", text := none } ∧
    some ("data:image/png;base64,QkJC" : String)
      ≠ some ("data:image/png;base64,QUFB" : String) := by
  exact ⟨by decide, by decide⟩

/-- C4 as amended: scanning the returned parts, the *last* inline-image
part found becomes `imageUrl` (re-encoded as a `data:image/png;base64`
URL) and the *last* text part found (among parts without inline data,
with truthy text) becomes `text`; a missing or malformed response
structure yields a result with both fields absent. -/
theorem claim_C4_response_parsing (parts : List GPart) :
    editResponseParse none = { imageUrl := none, text := none } ∧
    (editResponseParse (some parts)).imageUrl = lastInlineUrl parts ∧
    (editResponseParse (some parts)).text = lastTextVal parts := by
  obtain ⟨h1, h2⟩ := parseParts_acc parts (none, none)
  refine ⟨rfl, ?_, ?_⟩
  · show (parts.foldl parseStep (none, none)).1 = _
    rw [h1]
    cases lastInlineUrl parts <;> rfl
  · show (parts.foldl parseStep (none, none)).2 = _
    rw [h2]
    cases lastTextVal parts <;> rfl

/-! ## Claim C2: active-image update law -/

/-- C2 counterexample: a retry whose gateway call succeeds with text
only leaves `activeImage` at the rewound value (the last re-resolved
input image), which differs from the pre-retry value, contradicting
the claim that a text-only success leaves `activeImage` unchanged
from its pre-send value. -/
theorem claim_C2_counterexample :
    Option.map (fun r : RetryResult => r.final.activeImage)
      (confirmRetry exSessC2 (some 1) (some defaultSettings) "" false "m2" 9
        (GenOutcome.success { imageUrl := none, text := some "a hat" }))
      = some (some (decomposeUrl exUrlA)) ∧
    exSessC2.activeImage = some (pngActiveImage exUrlX) ∧
    some (decomposeUrl exUrlA) ≠ some (pngActiveImage exUrlX) := by
  exact ⟨by decide, rfl, by decide⟩

/-- C2 as amended: after a send or retry that succeeds with an image,
`activeImage` equals exactly the returned image's decomposition; after
a send that succeeds text-only and after any failed send or retry,
`activeImage` equals its pre-action value; after a retry that succeeds
text-only, `activeImage` equals the last re-resolved input image (the
optimistic rewind value), which may differ from the pre-retry value. -/
theorem claim_C2_active_image_law (sess : Session) (iv : String)
    (pending : List ImageState) (uId mId rp : String) (now msgIndex : Nat)
    (d : String) (hd : ',' ∉ d.data) :
    (∀ topt, (sendRun sess iv pending uId mId now
        (GenOutcome.success { imageUrl := some (pngDataUrl d), text := topt })).final.activeImage
      = some (specDecompose (pngDataUrl d))) ∧
    (∀ topt, (sendRun sess iv pending uId mId now
        (GenOutcome.success { imageUrl := none, text := topt })).final.activeImage
      = sess.activeImage) ∧
    (∀ em, (sendRun sess iv pending uId mId now
        (GenOutcome.failure em)).final.activeImage = sess.activeImage) ∧
    (∀ topt r, retryRun sess msgIndex rp mId now
        (GenOutcome.success { imageUrl := some (pngDataUrl d), text := topt }) = some r →
      r.final.activeImage = some (specDecompose (pngDataUrl d))) ∧
    (∀ topt r, retryRun sess msgIndex rp mId now
        (GenOutcome.success { imageUrl := none, text := topt }) = some r →
      r.final.activeImage = r.inputs.getLast?) ∧
    (∀ em r, retryRun sess msgIndex rp mId now (GenOutcome.failure em) = some r →
      r.final.activeImage = sess.activeImage) := by
  refine ⟨?_, ?_, ?_, ?_, ?_, ?_⟩
  · intro topt
    simp [sendRun, sendFinalSession, sendFinalActive, jsTruthy,
      pngDataUrl_ne_empty d, pngActiveImage_decomposes d hd]
  · intro topt
    simp [sendRun, sendFinalSession, sendFinalActive, jsTruthy]
  · intro em
    simp [sendRun, sendFinalSession, sendFinalActive]
  · intro topt r hr
    obtain ⟨um, h0, hu, rfl⟩ := retryRun_some _ _ _ _ _ _ _ hr
    simp [retryFinalSession, retryFinalActive, jsTruthy,
      pngDataUrl_ne_empty d, pngActiveImage_decomposes d hd]
  · intro topt r hr
    obtain ⟨um, h0, hu, rfl⟩ := retryRun_some _ _ _ _ _ _ _ hr
    simp [retryFinalSession, retryFinalActive, jsTruthy]
  · intro em r hr
    obtain ⟨um, h0, hu, rfl⟩ := retryRun_some _ _ _ _ _ _ _ hr
    simp [retryFinalSession, retryFinalActive]

/-- Witness for C2 as amended: an image success with payload `QUJD`
stores exactly the spec decomposition of the returned URL. -/
theorem claim_C2_witness :
    (',' ∉ ("QUJD" : String).data) ∧
    (sendRun exSessC2 "hi" [] "u1" "m1" 9
        (GenOutcome.success { imageUrl := some (pngDataUrl "QUJD"), text := none })).final.activeImage
      = some (specDecompose (pngDataUrl "QUJD")) :=
  ⟨by decide,
    (claim_C2_active_image_law exSessC2 "hi" [] "u1" "m1" "" 9 0 "QUJD"
      (by decide)).1 none⟩

/-! ## Claim C3: retry input and prompt resolution -/

/-- A string followed by a space-prefixed string is never empty. -/
theorem append_space_ne_empty (a t : String) : a ++ (" " ++ t) ≠ "" := by
  intro h
  have h2 := congrArg String.data h
  rw [String.data_append, String.data_append] at h2
  have h3 : a.data ++ ' ' :: t.data = ([] : List Char) := h2
  rcases List.append_eq_nil.mp h3 with ⟨-, h5⟩
  exact List.cons_ne_nil _ _ h5

/-- C3 counterexample: when the preceding user message carries only the
legacy single-image field, the retry re-resolves an *empty* input set
(and here finds nothing earlier either), instead of treating that
field as a one-element images list. -/
theorem claim_C3_counterexample :
    Option.map (fun r : RetryResult => r.inputs)
      (confirmRetry exSessC3 (some 1) (some defaultSettings) "" false "m2" 9
        (GenOutcome.failure none)) = some [] ∧
    (exSessC3.messages.get? 0).bind (fun m => m.image) = some exUrlLegacy ∧
    ([] : List ImageState) ≠ [decomposeUrl exUrlLegacy] := by
  exact ⟨by decide, by decide, by decide⟩

/-- C3 as amended: the retry re-resolves its inputs from the preceding
user message's modern `images` field when that is non-empty — the
legacy single-image field of the user message itself is never
consulted — else by scanning strictly earlier history with the
dual-field lookup; the effective prompt is the user message's original
text concatenated with the trimmed optional feedback separated by a
space, falling back to "Edit this image" when the combination is
empty. -/
theorem claim_C3_retry_resolution (sess : Session) (msgIndex : Nat)
    (rp mId : String) (now : Nat) (oc : GenOutcome) (userMsg : Message)
    (rsv : AppSettings) (h0 : msgIndex ≠ 0)
    (hu : sess.messages.get? (msgIndex - 1) = some userMsg) :
    confirmRetry sess (some msgIndex) (some rsv) rp false mId now oc
      = retryRun sess msgIndex rp mId now oc ∧
    Option.map (fun r : RetryResult => r.inputs)
        (retryRun sess msgIndex rp mId now oc)
      = some (retryInputs sess.messages msgIndex userMsg) ∧
    Option.map (fun r : RetryResult => r.fullPrompt)
        (retryRun sess msgIndex rp mId now oc)
      = some (retryFullPrompt userMsg rp) ∧
    (∀ imgs, userMsg.images = some imgs → imgs ≠ [] →
      retryInputs sess.messages msgIndex userMsg = imgs.map decomposeUrl) ∧
    (userMsg.images = none ∨ userMsg.images = some [] →
      retryInputs sess.messages msgIndex userMsg
        = retryScanInputs sess.messages msgIndex) ∧
    (∀ u, retryInputs sess.messages msgIndex { userMsg with image := u }
      = retryInputs sess.messages msgIndex userMsg) ∧
    (jsTrim rp = "" → retryFullPrompt userMsg rp
      = (if userMsg.text.getD "" = "" then "Edit this image"
         else userMsg.text.getD "")) ∧
    (jsTrim rp ≠ "" → retryFullPrompt userMsg rp
      = userMsg.text.getD "" ++ (" " ++ jsTrim rp)) := by
  refine ⟨rfl, ?_, ?_, ?_, ?_, ?_, ?_, ?_⟩
  · rw [retryRun_eq sess msgIndex rp mId now oc userMsg h0 hu]
    rfl
  · rw [retryRun_eq sess msgIndex rp mId now oc userMsg h0 hu]
    rfl
  · intro imgs himgs hne
    simp [retryInputs, himgs, hne]
  · intro hcase
    rcases hcase with hnone | hnil
    · simp [retryInputs, hnone]
    · simp [retryInputs, hnil]
  · intro u
    simp [retryInputs]
  · intro hrp
    simp [retryFullPrompt, hrp]
  · intro hrp
    simp [retryFullPrompt, hrp,
      append_space_ne_empty (userMsg.text.getD "") (jsTrim rp)]

/-- Witness for C3 as amended, at the legacy-retry scenario session
with feedback "fix it". -/
theorem claim_C3_witness :
    ((1 : Nat) ≠ 0) ∧
    exSessC3.messages.get? 0
      = some (exUserMsg "u0" (some "add hat") (some exUrlLegacy) none 1) ∧
    Option.map (fun r : RetryResult => r.fullPrompt)
        (retryRun exSessC3 1 "fix it" "m2" 9 (GenOutcome.failure none))
      = some (retryFullPrompt (exUserMsg "u0" (some "add hat") (some exUrlLegacy) none 1) "fix it") := by
  refine ⟨by decide, rfl, ?_⟩
  exact (claim_C3_retry_resolution exSessC3 1 "fix it" "m2" 9 (GenOutcome.failure none)
    (exUserMsg "u0" (some "add hat") (some exUrlLegacy) none 1) defaultSettings
    (by decide) rfl).2.2.1

/-! ## Claim C5: history append-only except retry truncation -/

/-- C5: a send first appends the constructed user message and then
appends exactly one model (or error) message, so the history length
only grows; a retry first truncates the history to the messages
strictly before the target model message and then appends exactly one
model (or error) message. -/
theorem claim_C5_history_evolution (sess : Session) (iv : String)
    (pending : List ImageState) (uId mId : String) (now : Nat)
    (oc : GenOutcome) (msgIndex : Nat) (rp : String) (userMsg : Message)
    (h0 : msgIndex ≠ 0)
    (hu : sess.messages.get? (msgIndex - 1) = some userMsg) :
    (sendRun sess iv pending uId mId now oc).mid.messages
      = sess.messages ++ [sendUserMessage uId (jsTrim iv) pending now] ∧
    (sendRun sess iv pending uId mId now oc).final.messages
      = (sendRun sess iv pending uId mId now oc).mid.messages
          ++ [sendResponseMessage mId now oc] ∧
    sess.messages.length < (sendRun sess iv pending uId mId now oc).mid.messages.length ∧
    (sendRun sess iv pending uId mId now oc).mid.messages.length
      < (sendRun sess iv pending uId mId now oc).final.messages.length ∧
    Option.map (fun r : RetryResult => r.mid.messages)
        (retryRun sess msgIndex rp mId now oc)
      = some (sess.messages.take msgIndex) ∧
    Option.map (fun r : RetryResult => r.mid.messages.length)
        (retryRun sess msgIndex rp mId now oc) = some msgIndex ∧
    Option.map (fun r : RetryResult => r.final.messages)
        (retryRun sess msgIndex rp mId now oc)
      = some (sess.messages.take msgIndex ++ [retryResponseMessage mId now oc]) ∧
    Option.map (fun r : RetryResult => r.final.messages.length)
        (retryRun sess msgIndex rp mId now oc) = some (msgIndex + 1) := by
  have hlen : msgIndex ≤ sess.messages.length := by
    have h1 : msgIndex - 1 < sess.messages.length := List.get?_eq_some.mp hu |>.1
    omega
  have htake : (sess.messages.take msgIndex).length = msgIndex := by
    rw [List.length_take]
    omega
  rw [retryRun_eq sess msgIndex rp mId now oc userMsg h0 hu]
  refine ⟨rfl, rfl, by simp [sendRun], by simp [sendRun, sendFinalSession], rfl, ?_, ?_, ?_⟩
  · simp [htake]
  · rfl
  · simp [retryFinalSession, htake]

/-- Witness for C5: a concrete send and a concrete retry on the
retry-scenario session. -/
theorem claim_C5_witness :
    ((1 : Nat) ≠ 0) ∧
    exSessC2.messages.get? 0
      = some (exUserMsg "u0" (some "add a hat") none (some [exUrlA]) 1) ∧
    Option.map (fun r : RetryResult => r.mid.messages.length)
        (retryRun exSessC2 1 "" "m2" 9 (GenOutcome.failure none)) = some 1 := by
  refine ⟨by decide, rfl, ?_⟩
  exact (claim_C5_history_evolution exSessC2 "x" [] "u1" "m1" 9
    (GenOutcome.failure none) 1 ""
    (exUserMsg "u0" (some "add a hat") none (some [exUrlA]) 1)
    (by decide) rfl).2.2.2.2.2.1

/-! ## Claim C6: title derivation -/

/-- C6 counterexample: the 39-character first text
"Make the sky orange and dramatic please" yields the title
"Make the sky orange and dramat..." (its first 30 characters plus an
ellipsis), not "Make the sky orange and drama..." as the claim
states. -/
theorem claim_C6_counterexample :
    (sendRun (mkDefaultSession "s6c" 0) "Make the sky orange and dramatic please"
        [] "u1" "m1" 7 (GenOutcome.failure none)).mid.title
      = "Make the sky orange and dramat..." ∧
    ("Make the sky orange and dramat..." : String)
      ≠ "Make the sky orange and drama..." := by
  exact ⟨by decide, by decide⟩

/-- C6 as amended: the title is assigned only on the first real
exchange (existing message count at most 1 before appending), as the
trimmed text truncated to its first 30 characters with an ellipsis
appended when longer, or the fixed placeholder "Image Edit Session"
when there is no text but images were attached; the 39-character first
text "Make the sky orange and dramatic please" yields
"Make the sky orange and dramat..."; on later turns the title is never
overwritten. -/
theorem claim_C6_title_derivation (sess : Session) (iv : String)
    (pending : List ImageState) (uId mId : String) (now : Nat)
    (oc : GenOutcome) :
    (sendRun sess iv pending uId mId now oc).mid.title
      = sendTitle sess (jsTrim iv) pending ∧
    (sendRun sess iv pending uId mId now oc).final.title
      = sendTitle sess (jsTrim iv) pending ∧
    (sess.messages.length ≤ 1 → jsTrim iv ≠ "" →
      sendTitle sess (jsTrim iv) pending
        = jsSlice (jsTrim iv) 30
            ++ (if 30 < (jsTrim iv).data.length then "..." else "")) ∧
    (sess.messages.length ≤ 1 → jsTrim iv = "" → pending ≠ [] →
      sendTitle sess (jsTrim iv) pending = "Image Edit Session") ∧
    (1 < sess.messages.length → sendTitle sess (jsTrim iv) pending = sess.title) ∧
    (sendRun (mkDefaultSession "s6" 0) "Make the sky orange and dramatic please"
        [] uId mId now oc).mid.title = "Make the sky orange and dramat..." := by
  refine ⟨rfl, rfl, ?_, ?_, ?_, ?_⟩
  · intro hlen htext
    simp [sendTitle, hlen, htext]
  · intro hlen htext hpend
    simp [sendTitle, hlen, htext, hpend]
  · intro hlen
    have h1 : ¬(sess.messages.length ≤ 1) := by omega
    simp [sendTitle, h1]
  · show sendTitle (mkDefaultSession "s6" 0)
      (jsTrim "Make the sky orange and dramatic please") []
        = "Make the sky orange and dramat..."
    decide

/-- Witness for C6 as amended: the truncation rule applied to the
39-character scenario text on a fresh session. -/
theorem claim_C6_witness :
    ((mkDefaultSession "s6" 0).messages.length ≤ 1) ∧
    (jsTrim "Make the sky orange and dramatic please" ≠ "") ∧
    sendTitle (mkDefaultSession "s6" 0)
        (jsTrim "Make the sky orange and dramatic please") []
      = jsSlice (jsTrim "Make the sky orange and dramatic please") 30
          ++ (if 30 < (jsTrim "Make the sky orange and dramatic please").data.length
              then "..." else "") := by
  refine ⟨by decide, by decide, ?_⟩
  exact (claim_C6_title_derivation (mkDefaultSession "s6" 0)
    "Make the sky orange and dramatic please" [] "u1" "m1" 7
    (GenOutcome.failure none)).2.2.1 (by decide) (by decide)

/-! ## Claim C7: at-least-one-session invariant -/

/-- An upserted session is in the resulting store. -/
theorem putSession_self_mem (db : List Session) (s : Session) :
    s ∈ putSession db s := by
  unfold putSession
  split
  · next h =>
    rw [List.any_eq_true] at h
    obtain ⟨t, ht, hid⟩ := h
    simp only [decide_eq_true_eq] at hid
    exact List.mem_map.mpr ⟨t, ht, by simp [hid]⟩
  · exact List.mem_append.mpr (Or.inr (List.mem_singleton.mpr rfl))

/-- Every create or delete leaves at least one session in memory. -/
theorem applyOp_len (st : AppState) (op : AppOp) :
    1 ≤ (applyOp st op).sessions.length := by
  cases op with
  | create newId now => simp [applyOp, createNewSession]
  | delete sessionId newId now =>
    show 1 ≤ (handleDeleteSession st sessionId newId now).sessions.length
    unfold handleDeleteSession
    split
    · simp
    · simp

/-- Folding any operation sequence preserves non-emptiness. -/
theorem foldl_applyOp_len : ∀ (ops : List AppOp) (init : AppState),
    1 ≤ init.sessions.length → 1 ≤ (ops.foldl applyOp init).sessions.length
  | [], _, h => h
  | op :: rest, init, _ =>
    foldl_applyOp_len rest (applyOp init op) (applyOp_len init op)

/-- C7: for every sequence of create/delete operations starting from a
state with at least one session, every state keeps at least one
session; in fact every single operation leaves at least one session
regardless of the starting state, and deleting the last remaining
session synthesizes a fresh default session, selects it, and persists
it. -/
theorem claim_C7_at_least_one_session (init : AppState) (ops : List AppOp)
    (hinit : 1 ≤ init.sessions.length) :
    1 ≤ (ops.foldl applyOp init).sessions.length ∧
    (∀ st op, 1 ≤ (applyOp st op).sessions.length) ∧
    (∀ st sessionId newId now,
      st.sessions.filter (fun s => s.id ≠ sessionId) = [] →
      (handleDeleteSession st sessionId newId now).sessions
          = [mkDefaultSession newId now] ∧
        (handleDeleteSession st sessionId newId now).currentId = some newId ∧
        mkDefaultSession newId now ∈ (handleDeleteSession st sessionId newId now).db) := by
  refine ⟨foldl_applyOp_len ops init hinit, applyOp_len, ?_⟩
  · intro st sessionId newId now hfilter
    unfold handleDeleteSession
    rw [hfilter]
    exact ⟨rfl, rfl, putSession_self_mem _ _⟩

/-- Witness for C7: deleting the only session then creating another
keeps the collection non-empty. -/
theorem claim_C7_witness :
    1 ≤ exAppStateC7.sessions.length ∧
    1 ≤ ((exOpsC7.foldl applyOp exAppStateC7).sessions.length) :=
  ⟨by decide,
    (claim_C7_at_least_one_session exAppStateC7 exOpsC7 (by decide)).1⟩

/-! ## Claim C8: lastModified on mutations, newest-first ordering -/

/-- Membership in a stable descending insertion. -/
theorem insertDesc_mem (x s : Session) :
    ∀ l : List Session, x ∈ insertDesc s l ↔ x = s ∨ x ∈ l
  | [] => by simp [insertDesc]
  | t :: ts => by
    by_cases h : t.lastModified < s.lastModified
    · simp [insertDesc, h]
    · simp [insertDesc, h, insertDesc_mem x s ts]
      tauto

/-- Stable descending insertion preserves newest-first sortedness. -/
theorem insertDesc_sorted (s : Session) :
    ∀ l : List Session, sessionsSortedDesc l → sessionsSortedDesc (insertDesc s l)
  | [], _ => by simp [insertDesc, sessionsSortedDesc]
  | t :: ts, h => by
    rw [sessionsSortedDesc, List.pairwise_cons] at h
    obtain ⟨h1, h2⟩ := h
    by_cases hlt : t.lastModified < s.lastModified
    · have he : insertDesc s (t :: ts) = s :: t :: ts := by
        simp [insertDesc, hlt]
      rw [sessionsSortedDesc, he, List.pairwise_cons]
      refine ⟨?_, ?_⟩
      · intro x hx
        rcases List.mem_cons.mp hx with rfl | hx2
        · exact Nat.le_of_lt hlt
        · exact Nat.le_trans (h1 x hx2) (Nat.le_of_lt hlt)
      · rw [List.pairwise_cons]
        exact ⟨h1, h2⟩
    · have he : insertDesc s (t :: ts) = t :: insertDesc s ts := by
        simp [insertDesc, hlt]
      rw [sessionsSortedDesc, he, List.pairwise_cons]
      refine ⟨?_, insertDesc_sorted s ts h2⟩
      intro x hx
      rcases (insertDesc_mem x s ts).mp hx with rfl | hx2
      · exact Nat.le_of_not_lt hlt
      · exact h1 x hx2

/-- The sidebar listing is always sorted newest-first. -/
theorem sortSessions_sorted : ∀ l : List Session, sessionsSortedDesc (sortSessions l)
  | [] => by simp [sortSessions, sessionsSortedDesc]
  | s :: rest => insertDesc_sorted s (sortSessions rest) (sortSessions_sorted rest)

/-- C8 counterexample: a settings change is a session mutation, yet it
leaves `lastModified` untouched. -/
theorem claim_C8_counterexample :
    (updateSettings exSessC8 exPatchC8).settings.style ≠ exSessC8.settings.style ∧
    (updateSettings exSessC8 exPatchC8).lastModified = exSessC8.lastModified := by
  exact ⟨by decide, by decide⟩

/-- C8 as amended: a send refreshes `lastModified` in both the
optimistic and the final update, and a retry refreshes it in the final
update; the optimistic retry rewind and a settings change do *not*
refresh it; listings order sessions newest-first by `lastModified`. -/
theorem claim_C8_last_modified (sess : Session) (iv : String)
    (pending : List ImageState) (uId mId rp : String) (now msgIndex : Nat)
    (oc : GenOutcome) (p : SettingsPatch) (l : List Session) :
    (sendRun sess iv pending uId mId now oc).mid.lastModified = now ∧
    (sendRun sess iv pending uId mId now oc).final.lastModified = now ∧
    (∀ r : RetryResult, retryRun sess msgIndex rp mId now oc = some r →
      r.mid.lastModified = sess.lastModified ∧ r.final.lastModified = now) ∧
    (updateSettings sess p).lastModified = sess.lastModified ∧
    (updateSettings sess p).settings = mergeSettings sess.settings p ∧
    sessionsSortedDesc (sortSessions l) := by
  refine ⟨rfl, rfl, ?_, rfl, rfl, sortSessions_sorted l⟩
  intro r hr
  obtain ⟨um, h0, hu, rfl⟩ := retryRun_some _ _ _ _ _ _ _ hr
  exact ⟨rfl, rfl⟩

/-- Witness for C8 as amended: the retry rewind on the retry-scenario
session keeps the old timestamp while the final update refreshes it. -/
theorem claim_C8_witness :
    retryRun exSessC2 1 "" "m2" 9 (GenOutcome.failure none)
      = some ((retryRun exSessC2 1 "" "m2" 9 (GenOutcome.failure none)).getD
          { inputs := [], fullPrompt := "", mid := exSessC2, final := exSessC2 }) ∧
    ((retryRun exSessC2 1 "" "m2" 9 (GenOutcome.failure none)).getD
        { inputs := [], fullPrompt := "", mid := exSessC2, final := exSessC2 }).mid.lastModified
      = exSessC2.lastModified ∧
    ((retryRun exSessC2 1 "" "m2" 9 (GenOutcome.failure none)).getD
        { inputs := [], fullPrompt := "", mid := exSessC2, final := exSessC2 }).final.lastModified
      = 9 := by
  have h := (claim_C8_last_modified exSessC2 "x" [] "u1" "m2" "" 9 1
    (GenOutcome.failure none)
    { temperature := none, style := none, aspectRatioVal := none, isFullBody := none }
    []).2.2.1
  refine ⟨by decide, ?_⟩
  exact h _ (by decide)

/-! ## Claim C9: legacy migration -/

/-- C9: migration runs only at startup when the primary store is
empty; a legacy blob parsing to a non-empty list with all writes
succeeding is upserted wholesale, the blob is cleared and the list
returned; a missing blob, a parse failure, an empty parse or any
write failure yields `none` ("nothing migrated") without clearing the
blob, and no error escapes the function. -/
theorem claim_C9_migration (db : List Session) (legacy : Option String)
    (parse : String → Option (List Session)) (putFails : Session → Bool)
    (saved : String) (l : List Session) :
    (db ≠ [] → initAppSessions db legacy parse putFails = ((db, legacy), db)) ∧
    clearLocalStorageAndMigrate db none parse putFails = ((db, none), none) ∧
    (parse saved = none →
      clearLocalStorageAndMigrate db (some saved) parse putFails
        = ((db, some saved), none)) ∧
    (parse saved = some [] →
      clearLocalStorageAndMigrate db (some saved) parse putFails
        = ((db, some saved), none)) ∧
    (parse saved = some l → l ≠ [] → l.any putFails = true →
      clearLocalStorageAndMigrate db (some saved) parse putFails
        = ((db, some saved), none)) ∧
    (parse saved = some l → l ≠ [] → l.any putFails = false →
      clearLocalStorageAndMigrate db (some saved) parse putFails
        = ((upsertAll db l, none), some l)) ∧
    (db = [] → legacy = some saved → parse saved = some l → l ≠ [] →
      l.any putFails = false →
      initAppSessions db legacy parse putFails = ((upsertAll db l, none), l)) := by
  refine ⟨?_, rfl, ?_, ?_, ?_, ?_, ?_⟩
  · intro hdb
    simp [initAppSessions, hdb]
  · intro hp
    simp [clearLocalStorageAndMigrate, hp]
  · intro hp
    simp [clearLocalStorageAndMigrate, hp]
  · intro hp hne hfail
    simp [clearLocalStorageAndMigrate, hp, hne, hfail]
  · intro hp hne hok
    simp [clearLocalStorageAndMigrate, hp, hne, hok]
  · intro hdb hleg hp hne hok
    subst hdb hleg
    simp [initAppSessions, clearLocalStorageAndMigrate, hp, hne, hok]

/-- Witness for C9: a blob parsing to one session migrates into the
empty store, clears the blob and returns the session. -/
theorem claim_C9_witness :
    (([] : List Session) = []) ∧
    (some "blob" : Option String) = some "blob" ∧
    exParseC9 "blob" = some [exMigSession] ∧
    [exMigSession] ≠ ([] : List Session) ∧
    [exMigSession].any exPutFailsC9 = false ∧
    initAppSessions [] (some "blob") exParseC9 exPutFailsC9
      = ((upsertAll [] [exMigSession], none), [exMigSession]) := by
  refine ⟨rfl, rfl, rfl, List.cons_ne_nil _ _, rfl, ?_⟩
  exact (claim_C9_migration [] (some "blob") exParseC9 exPutFailsC9 "blob"
    [exMigSession]).2.2.2.2.2.2 rfl rfl rfl (List.cons_ne_nil _ _) rfl
